import Mathlib

/-!
Verification of the input-readiness and validation pipeline of the
AI Career Copilot app (src/app.py): the text normalizer `clean_text`,
the job-description classifier `validate_job_description_gpt`, the
parse and analyze button handlers, and the analysis prompt builder
inside `analyze_resume_with_ai`.

External collaborators (the PDF extractor, the OpenAI chat-completions
endpoint, the Streamlit widget layer) are modelled as explicit inputs:
the extractor as an `Except` value, the network classifier as an oracle
argument, and the widget/session split as explicit state records.
-/

/-- The set of characters Python treats as whitespace for `str.split()` and
`str.strip()` (the `str.isspace` set). Note that U+200B and U+FEFF are NOT
Python whitespace. -/
def pyIsSpace (c : Char) : Bool :=
  c == ' ' || c == '\t' || c == '\n' || c == '\r' || c == '\x0b' || c == '\x0c' ||
  c == '\x1c' || c == '\x1d' || c == '\x1e' || c == '\x1f' || c == '\x85' ||
  c == '\xa0' || c == '\u1680' || ('\u2000' ≤ c && c ≤ '\u200a') ||
  c == '\u2028' || c == '\u2029' || c == '\u202f' || c == '\u205f' || c == '\u3000'

/-- Characters matched by the regex class `[ \t]` in `clean_text`. -/
def isHTab (c : Char) : Bool := c == ' ' || c == '\t'

/-- Python left strip (`str.lstrip()`) on a character list. -/
def pyLstripL (l : List Char) : List Char := l.dropWhile pyIsSpace

/-- Python right strip (`str.rstrip()`) on a character list. -/
def pyRstripL (l : List Char) : List Char := (l.reverse.dropWhile pyIsSpace).reverse

/-- Python `str.strip()` on a character list: left strip then right strip. -/
def pyStripL (l : List Char) : List Char := pyRstripL (pyLstripL l)

/-- Python `str.strip()` on strings. -/
def pyStrip (s : String) : String := ⟨pyStripL s.data⟩

/-- One step of collapsing runs of `[ \t]` into a single space, consuming the
input from the right. A horizontal-whitespace character merges into a space
already emitted immediately to its right, so each maximal `[ \t]+` run
becomes exactly one `' '`, as `re.sub(r"[ \t]+", " ", t)` does (app.py:89). -/
def collapseHStep (c : Char) (r : List Char) : List Char :=
  if isHTab c then (if r.head? == some ' ' then r else ' ' :: r) else c :: r

/-- `re.sub(r"[ \t]+", " ", t)` of app.py:89 on a character list. -/
def collapseH : List Char → List Char
  | [] => []
  | c :: cs => collapseHStep c (collapseH cs)

/-- One step of capping runs of newlines at two, consuming the input from the
right: a `'\n'` already followed by two output newlines is dropped. Runs of one
or two newlines are untouched and runs of three or more become exactly two,
as `re.sub` with pattern backslash-n-repeated-at-least-3 does (app.py:90). -/
def collapseNLStep (c : Char) (r : List Char) : List Char :=
  if c == '\n' && r.take 2 == ['\n', '\n'] then r else c :: r

/-- The newline-run cap of app.py:90 on a character list. -/
def collapseNL : List Char → List Char
  | [] => []
  | c :: cs => collapseNLStep c (collapseNL cs)

/-- `re.sub` deleting every U+200B and U+FEFF occurrence (app.py:91). -/
def removeZW (l : List Char) : List Char :=
  l.filter (fun c => c != '\u200b' && c != '\ufeff')

/-- `clean_text` (app.py:85-92): empty input maps to itself, otherwise
collapse `[ \t]+` runs to one space, cap newline runs at two, delete
zero-width-space and BOM characters, then `strip()`. -/
def clean_text (t : String) : String :=
  if t = "" then ("")
  else pyStrip ⟨removeZW (collapseNL (collapseH t.data))⟩

/-- Word counting as Python `len(s.split())`: the number of maximal runs of
non-whitespace characters. The boolean argument records whether the previous
character was part of a word. -/
def countWordsAux : Bool → List Char → Nat
  | _, [] => 0
  | inWord, c :: cs =>
    if pyIsSpace c then countWordsAux false cs
    else (if inWord then 0 else 1) + countWordsAux true cs

/-- `len(s.split())` in Python: number of whitespace-separated words. -/
def wordCount (s : String) : Nat := countWordsAux false s.data

/-- `jd_too_short` (app.py:94-95). -/
def jd_too_short (jd : String) (min_words : Nat := 40) : Bool :=
  wordCount jd < min_words


/-- A parsed JSON value, as produced by `json.loads`. Objects model Python
dicts: keys are unique, in insertion order. -/
inductive JValue where
  | null : JValue
  | bool (b : Bool) : JValue
  | num (n : Int) : JValue
  | str (s : String) : JValue
  | arr (elems : List JValue) : JValue
  | obj (fields : List (String × JValue)) : JValue

/-- Python-dict lookup `data.get(key)` on a decoded JSON object: the value of
the (unique) matching key, if present. -/
def jlookup (fields : List (String × JValue)) (key : String) : Option JValue :=
  (fields.find? (fun kv => kv.1 == key)).map (fun kv => kv.2)

/-- Python truthiness `bool(v)` of a JSON-decoded value: `None`, `False`,
zero, and empty containers are falsy, everything else is truthy. -/
def pyTruthy : JValue → Bool
  | .null => false
  | .bool b => b
  | .num n => n != 0
  | .str s => s != ""
  | .arr elems => !elems.isEmpty
  | .obj fields => !fields.isEmpty

/-- The Python type name of a JSON-decoded value, as it appears in the
`AttributeError` raised by `data.get(...)` when `data` is not a dict. -/
def pyTypeName : JValue → String
  | .null => "NoneType"
  | .bool _ => "bool"
  | .num _ => "int"
  | .str _ => "str"
  | .arr _ => "list"
  | .obj _ => "dict"

/-- Whether a decoded JSON value is an object (a Python dict). -/
def isJObj : JValue → Bool
  | .obj _ => true
  | _ => false

/-- The reason string returned by the cheap length filter (app.py:38). -/
def shortMsg : String :=
  "The text is very short. A job description is usually at least a few sentences."

/-- Lines 76-83 of app.py: decode the classifier response. The argument is
the result of `json.loads` on the message content: `.error` when the content
is missing or is not valid JSON (the raised exception is caught by the
surrounding `try`). For a decoded dict, `bool(data.get("is_valid", False))`
is Python truthiness with default `False`, and `data.get("reason", "")`
defaults to the empty string. A non-dict value raises `AttributeError`
inside the `try`, which is likewise caught and stringified. -/
def parseVerdict (r : Except String JValue) : Bool × JValue :=
  match r with
  | .error e => (false, .str ("Validation failed: " ++ e))
  | .ok (.obj fields) =>
      (pyTruthy ((jlookup fields ("is_valid")).getD (.bool false)),
       (jlookup fields ("reason")).getD (.str ("")))
  | .ok v =>
      (false, .str ("Validation failed: \x27" ++ pyTypeName v ++ "\x27 object has no attribute \x27get\x27"))

/-- `validate_job_description_gpt` (app.py:30-83). The network call is
modelled by `oracle`: `.error e` when `client.chat.completions.create`
raises — that exception propagates out of the function, since the `try`
only wraps the response parsing — and `.ok r` when it returns, with `r` the
result of `json.loads` on the response content. The `Nat` component counts
requests issued to the external classification service. -/
def validate_job_description_gpt (jd_text : String)
    (oracle : Except String (Except String JValue)) :
    Except String ((Bool × JValue) × Nat) :=
  if wordCount jd_text < 40 then .ok ((false, .str shortMsg), 0)
  else
    match oracle with
    | .error e => .error e
    | .ok r => .ok (parseVerdict r, 1)

/-- The system message of the resume-only branch (app.py:106-111). -/
def resumeOnlySystem : String :=
  "You are a precise career advisor. The user did NOT provide a real job description (it is missing or too short). Give feedback on the resume ALONE and explicitly say that you cannot compare against a specific JD."

/-- The system message of the comparison branch (app.py:128-132). -/
def comparisonSystem : String :=
  "You are a precise career advisor. Analyze a candidate\x27s resume against a job description. Be specific, concise, and actionable. Use clear section headers and bullet points. Do not invent facts; use only provided text."

/-- The fixed text of the resume-only user message before the embedded
resume (app.py:112-121), after the leading newline that `.strip()` removes. -/
def roHead : String :=
  "Return your answer in **Markdown** with these sections:\n\n1) **Overall Resume Strengths** — 3–6 bullets\n2) **Areas to Improve** — 3–6 bullets\n3) **Resume Bullet Rewrites (ATS-ready)** — 3–6 bullets\n4) **General Professional Summary (3–4 sentences)**\n\n--- RESUME ---\n"

/-- The fixed text between resume and job description in the resume-only
user message (app.py:122-124). -/
def roMid : String := "\n\n--- JOB DESCRIPTION (too short / invalid) ---\n"

/-- The fixed text of the comparison user message before the embedded
resume (app.py:133-143). -/
def compHead : String :=
  "Return your answer in **Markdown** with these sections:\n\n1) **Strengths vs JD** — 3–6 bullets\n2) **Skill/Experience Gaps** — 3–6 bullets (use verb–noun phrasing, e.g., \"Hands-on Databricks pipelines\")\n3) **Resume Bullet Rewrites (ATS-ready)** — 3–6 bullets; use strong verbs + quantification placeholders if needed\n4) **Tailored Professional Summary (3–4 sentences)** — role-aligned, no fluff\n5) **Top Keywords to Add** — comma-separated\n\n--- RESUME ---\n"

/-- The fixed text between resume and job description in the comparison
user message (app.py:144-146). -/
def compMid : String := "\n\n--- JOB DESCRIPTION ---\n"

/-- The prompt-assembly step of `analyze_resume_with_ai` (app.py:97-147):
the (system message, user message) pair handed to the generation call.
Each f-string opens with a newline, closes with a newline after the embedded
job description, and `.strip()` is applied to the assembled text. -/
def analyze_resume_prompt (resume_text job_description : String) : String × String :=
  if wordCount job_description < 40 then
    (resumeOnlySystem,
     pyStrip ("\n" ++ roHead ++ resume_text ++ roMid ++ job_description ++ "\n"))
  else
    (comparisonSystem,
     pyStrip ("\n" ++ compHead ++ resume_text ++ compMid ++ job_description ++ "\n"))

/-- The three `st.session_state` keys the pipeline uses. `none` models an
absent key (`st.session_state.get` returns Python `None`). -/
structure SessionState where
  resume_text : Option String
  job_description : Option String
  job_description_valid : Option Bool
  deriving DecidableEq

/-- `ready` (app.py:373-377): `bool()` of the three stored values, read with
`st.session_state.get`; `None` and the empty string are falsy. -/
def ready (s : SessionState) : Bool :=
  (match s.resume_text with | none => false | some t => t != "") &&
  (match s.job_description with | none => false | some t => t != "") &&
  (match s.job_description_valid with | none => false | some b => b)

/-- Page state visible to one script run: the session store plus the live
contents of the job-description text area (the `job_description` widget). -/
structure AppState where
  session : SessionState
  jd_field : String

/-- The analyze button (app.py:383) is rendered with `disabled=not ready`,
and `ready` is computed from `st.session_state` alone. -/
def analyzeEnabled (a : AppState) : Bool := ready a.session

/-- Typing in the job-description text area changes only the widget value;
no session-state key is written outside the parse handler. -/
def editJDField (a : AppState) (t : String) : AppState := { a with jd_field := t }

/-- The outcome of one click of "Continue → Parse Resume": the session state
afterwards, whether the short-extraction warning banner was shown, and
whether `validate_job_description_gpt` was invoked. -/
structure ParseResult where
  state : SessionState
  warned : Bool
  calledValidate : Bool
  deriving DecidableEq

/-- The "Continue → Parse Resume" handler (app.py:325-367). `resume_file` is
`none` when no file is uploaded; `extract` is the outcome of
`extract_pdf_text` (`.error` when it raises); `oracle` feeds
`validate_job_description_gpt`. The `try` block converts any exception into
an error banner; `st.session_state["resume_text"]` and
`st.session_state["job_description"]` are assigned before the validation
call, and `st.session_state["job_description_valid"]` after it returns, so
an exception escaping the validation call leaves the first two keys updated
and the third untouched. -/
def parseAction (s : SessionState) (resume_file : Option Unit) (jd_field : String)
    (extract : Except String String)
    (oracle : Except String (Except String JValue)) : ParseResult :=
  match resume_file with
  | none => ⟨s, false, false⟩
  | some _ =>
    if pyStrip jd_field = "" then ⟨s, false, false⟩
    else
      match extract with
      | .error _ => ⟨s, false, false⟩
      | .ok raw =>
        let text := clean_text raw
        let warned := (text == "") || (text.length < 200)
        let jd := pyStrip jd_field
        let s1 : SessionState :=
          { s with resume_text := some text, job_description := some jd }
        match validate_job_description_gpt jd oracle with
        | .error _ => ⟨s1, warned, true⟩
        | .ok ((v, _), _) => ⟨{ s1 with job_description_valid := some v }, warned, true⟩

/-- The "Analyze with AI" click handler (app.py:383-399), up to the
generation call: `none` when the button is disabled (`not ready`) or when
the redundant `jd_too_short` check aborts with an error banner; otherwise
`some` prompt pair, which is exactly what `analyze_resume_with_ai` sends to
the generation service. -/
def analyzeHandler (s : SessionState) : Option (String × String) :=
  if ready s then
    match s.job_description, s.resume_text with
    | some jd, some rt =>
        if jd_too_short jd then none else some (analyze_resume_prompt rt jd)
    | _, _ => none
  else none

/-- A 40-word string: "w w ... w". -/
def wWords : Nat → String
  | 0 => ""
  | 1 => "w"
  | n + 2 => "w " ++ wWords (n + 1)

/-- Holds when no U+200B and no U+FEFF character occurs (the characters
deleted at app.py:91). -/
def noZW (l : List Char) : Bool := l.all (fun c => c != '\u200b' && c != '\ufeff')

/-- Holds when no tab character occurs. -/
def noTabB (l : List Char) : Bool := l.all (fun c => c != '\t')

/-- Holds when no two adjacent horizontal-whitespace characters occur, that
is, no run of two or more characters from the class `[ \t]`. -/
def noHRunB : List Char → Bool
  | a :: b :: rest => (!(isHTab a && isHTab b)) && noHRunB (b :: rest)
  | _ => true

/-- Holds when no three consecutive newline characters occur, that is, no
run of more than two newlines. -/
def noTripleNLB : List Char → Bool
  | a :: b :: c :: rest =>
      (!(a == '\n' && b == '\n' && c == '\n')) && noTripleNLB (b :: c :: rest)
  | _ => true

/-- Holds when neither end of the list is Python whitespace. -/
def strippedB (l : List Char) : Bool :=
  l.head?.all (fun c => !pyIsSpace c) && l.reverse.head?.all (fun c => !pyIsSpace c)

/-- A 40-word job description carrying trailing whitespace. -/
def jdTrailing : String := wWords 40 ++ "  "

/-- The zero-width space character U+200B. -/
def zwB : Char := Char.ofNat 0x200B

/-- A string with a zero-width space between two single spaces. -/
def c4Input : String := ⟨['a', ' ', zwB, ' ', 'b']⟩

/-- A string with a zero-width space between two double newlines. -/
def c5Input : String := ⟨['x', '\n', '\n', zwB, '\n', '\n', 'y']⟩

/-- Claim C1: the analyze action is enabled iff the stored snapshot holds a
non-empty resume text, a non-empty job-description text, and a true
validation verdict; and enablement is unchanged by edits to the live
job-description form field, because it reads only the stored snapshot. -/
theorem c1_gate_iff_snapshot :
    (∀ s : SessionState, ready s = true ↔
      ((∃ r, s.resume_text = some r ∧ r ≠ "") ∧
       (∃ j, s.job_description = some j ∧ j ≠ "") ∧
       s.job_description_valid = some true)) ∧
    (∀ (a : AppState) (t : String),
      analyzeEnabled (editJDField a t) = analyzeEnabled a) := by
  constructor
  · intro s
    obtain ⟨rt, jd, v⟩ := s
    cases rt <;> cases jd <;> cases v <;>
      simp [ready, Bool.and_eq_true, bne_iff_ne, and_assoc]
  · intro a t
    rfl

/-- Witness for C1 at a concrete snapshot and a concrete form edit. -/
theorem c1_gate_iff_snapshot_witness :
    ready ⟨some ("r"), some ("j"), some true⟩ = true ∧
    analyzeEnabled (editJDField ⟨⟨some ("r"), some ("j"), some true⟩, "draft"⟩ ("edited"))
      = analyzeEnabled ⟨⟨some ("r"), some ("j"), some true⟩, "draft"⟩ :=
  ⟨(c1_gate_iff_snapshot.1 ⟨some ("r"), some ("j"), some true⟩).mpr
      ⟨⟨"r", rfl, by decide⟩, ⟨"j", rfl, by decide⟩, rfl⟩,
   c1_gate_iff_snapshot.2 _ _⟩

/-- Counterexample to claim C3 as stated: on the 4-word input the classifier
does return is_valid = false with zero external calls, but the reason it
returns is the full sentence of app.py:38, not the literal string
"too short". -/
theorem c3_counterexample :
    wordCount ("lorem ipsum dolor sit") < 40 ∧
    validate_job_description_gpt ("lorem ipsum dolor sit") (.ok (.ok (.null)))
      = .ok ((false, .str shortMsg), 0) ∧
    shortMsg ≠ "too short" :=
  ⟨by decide, rfl, by decide⟩

/-- Claim C3 (amended): for every job-description text with fewer than 40
words and any oracle, the classifier immediately returns is_valid = false
with the too-short reason sentence of app.py:38 — "The text is very short.
A job description is usually at least a few sentences." — and performs zero
calls to the external classification service. -/
theorem c3_short_circuit :
    ∀ (jd : String) (oracle : Except String (Except String JValue)),
      wordCount jd < 40 →
      validate_job_description_gpt jd oracle = .ok ((false, .str shortMsg), 0) := by
  intro jd oracle h
  simp [validate_job_description_gpt, h]

/-- Witness for the amended C3 at a concrete short input and an oracle that
would fail if consulted. -/
theorem c3_short_circuit_witness :
    wordCount ("lorem ipsum") < 40 ∧
    validate_job_description_gpt ("lorem ipsum") (.error ("offline"))
      = .ok ((false, .str shortMsg), 0) :=
  ⟨by decide, c3_short_circuit _ _ (by decide)⟩

/-- Counterexample to claim C2 as stated: the decoded object
{"is_valid": "false", "reason": "not a job posting"} is not of the shape
{is_valid: bool, reason: string} — its "is_valid" field is a string, not a
boolean — yet the classifier returns is_valid = true on it, because Python
truthiness accepts any non-empty string. -/
theorem c2_counterexample :
    ¬ wordCount (wWords 40) < 40 ∧
    (∀ b : Bool,
      jlookup [("is_valid", .str ("false")), ("reason", .str ("not a job posting"))]
          ("is_valid") ≠ some (.bool b)) ∧
    validate_job_description_gpt (wWords 40)
      (.ok (.ok (.obj [("is_valid", .str ("false")), ("reason", .str ("not a job posting"))])))
      = .ok ((true, .str ("not a job posting")), 1) := by
  refine ⟨by decide, ?_, rfl⟩
  intro b h
  have h' : some (JValue.str ("false")) = some (JValue.bool b) := h
  simp at h'

/-- Claim C2 (amended): with at least 40 words, the classifier fails closed
— is_valid = false with a "Validation failed" diagnostic — whenever the
response content is missing or not valid JSON, or decodes to a non-object;
for a decoded object, is_valid is the Python truthiness of its "is_valid"
field (defaulting to false when the field is absent), so the classifier
returns is_valid = true only for a decoded object with a truthy "is_valid"
field — which need not be a boolean. -/
theorem c2_fails_closed :
    ∀ jd : String, ¬ wordCount jd < 40 →
      (∀ e, validate_job_description_gpt jd (.ok (.error e))
         = .ok ((false, .str ("Validation failed: " ++ e)), 1)) ∧
      (∀ v, isJObj v = false →
        validate_job_description_gpt jd (.ok (.ok v))
          = .ok ((false, .str ("Validation failed: \x27" ++ pyTypeName v
                    ++ "\x27 object has no attribute \x27get\x27")), 1)) ∧
      (∀ fields, validate_job_description_gpt jd (.ok (.ok (.obj fields)))
          = .ok ((pyTruthy ((jlookup fields ("is_valid")).getD (.bool false)),
                  (jlookup fields ("reason")).getD (.str (""))), 1)) ∧
      (∀ oracle r n, validate_job_description_gpt jd oracle = .ok ((true, r), n) →
        ∃ fields, oracle = .ok (.ok (.obj fields)) ∧
          pyTruthy ((jlookup fields ("is_valid")).getD (.bool false)) = true) := by
  intro jd h
  refine ⟨?_, ?_, ?_, ?_⟩
  · intro e
    simp [validate_job_description_gpt, h, parseVerdict]
  · intro v hv
    cases v <;> simp_all [isJObj, validate_job_description_gpt, parseVerdict]
  · intro fields
    simp [validate_job_description_gpt, h, parseVerdict]
  · intro oracle r n heq
    simp only [validate_job_description_gpt, if_neg h] at heq
    cases oracle with
    | error e => exact absurd heq (by simp)
    | ok rr =>
      cases rr with
      | error e => simp [parseVerdict] at heq
      | ok v =>
        cases v with
        | obj fields =>
          refine ⟨fields, rfl, ?_⟩
          simp [parseVerdict] at heq
          exact heq.1.1
        | null => simp [parseVerdict] at heq
        | bool b => simp [parseVerdict] at heq
        | num n => simp [parseVerdict] at heq
        | str s => simp [parseVerdict] at heq
        | arr elems => simp [parseVerdict] at heq

/-- Witness for the amended C2 at a 40-word input and a response whose
content is not valid JSON. -/
theorem c2_fails_closed_witness :
    ¬ wordCount (wWords 40) < 40 ∧
    validate_job_description_gpt (wWords 40) (.ok (.error ("Expecting value")))
      = .ok ((false, .str ("Validation failed: Expecting value")), 1) :=
  ⟨by decide, (c2_fails_closed (wWords 40) (by decide)).1 ("Expecting value")⟩

/-- Claim C9: for a decoded JSON object the verdict field is coerced with
Python truthiness, not checked to be a boolean: any stored "is_valid" value
yields its truthiness as the verdict — so a truthy non-boolean yields true —
and a missing "is_valid" field defaults to false via `.get`, returning
normally in every case. -/
theorem c9_truthiness :
    ∀ (jd : String), ¬ wordCount jd < 40 → ∀ fields : List (String × JValue),
      (∀ v, jlookup fields ("is_valid") = some v →
        validate_job_description_gpt jd (.ok (.ok (.obj fields)))
          = .ok ((pyTruthy v, (jlookup fields ("reason")).getD (.str (""))), 1)) ∧
      (jlookup fields ("is_valid") = none →
        validate_job_description_gpt jd (.ok (.ok (.obj fields)))
          = .ok ((false, (jlookup fields ("reason")).getD (.str (""))), 1)) := by
  intro jd h fields
  constructor
  · intro v hv
    simp [validate_job_description_gpt, h, parseVerdict, hv]
  · intro hv
    simp [validate_job_description_gpt, h, parseVerdict, hv, pyTruthy]

/-- Witness for C9: the non-empty string "false" as "is_valid" yields
is_valid = true; an object without "is_valid" yields false. -/
theorem c9_truthiness_witness :
    ¬ wordCount (wWords 40) < 40 ∧
    validate_job_description_gpt (wWords 40)
      (.ok (.ok (.obj [("is_valid", .str ("false"))])))
      = .ok ((true, .str ("")), 1) ∧
    validate_job_description_gpt (wWords 40)
      (.ok (.ok (.obj [("reason", .str ("fine"))])))
      = .ok ((false, .str ("fine")), 1) := by
  refine ⟨by decide, ?_, ?_⟩
  · have := (c9_truthiness (wWords 40) (by decide) [("is_valid", .str ("false"))]).1
      (.str ("false")) rfl
    simpa [pyTruthy, jlookup] using this
  · have := (c9_truthiness (wWords 40) (by decide) [("reason", .str ("fine"))]).2 rfl
    simpa [jlookup] using this

/-- Claim C10: whenever the analyze action actually reaches the generation
call, the stored job description has at least 40 words — the redundant
`jd_too_short` check aborts with an error banner otherwise, making no
generation call — so the resume-only fallback inside
`analyze_resume_with_ai` is unreachable from this flow: the prompt sent is
always the comparison template. -/
theorem c10_comparison_only :
    (∀ (s : SessionState) (p : String × String), analyzeHandler s = some p →
      ∃ rt jd, s.resume_text = some rt ∧ s.job_description = some jd ∧
        ¬ wordCount jd < 40 ∧
        p = (comparisonSystem,
             pyStrip ("\n" ++ compHead ++ rt ++ compMid ++ jd ++ "\n"))) ∧
    (∀ s : SessionState, ∀ jd, s.job_description = some jd →
      wordCount jd < 40 → analyzeHandler s = none) := by
  constructor
  · intro s p h
    obtain ⟨ort, ojd, ov⟩ := s
    cases hr : ready ⟨ort, ojd, ov⟩ with
    | false => simp [analyzeHandler, hr] at h
    | true =>
      cases ojd with
      | none => simp [analyzeHandler, hr] at h
      | some jd =>
        cases ort with
        | none => simp [analyzeHandler, hr] at h
        | some rt =>
          by_cases hwc : wordCount jd < 40
          · simp [analyzeHandler, hr, jd_too_short, hwc] at h
          · refine ⟨rt, jd, rfl, rfl, hwc, ?_⟩
            simp [analyzeHandler, hr, jd_too_short, hwc,
              analyze_resume_prompt] at h
            exact h.symm
  · intro s jd hjd hwc
    obtain ⟨ort, ojd, ov⟩ := s
    cases hjd
    cases hr : ready ⟨ort, some jd, ov⟩ with
    | false => simp [analyzeHandler, hr]
    | true =>
      cases ort with
      | none => simp [analyzeHandler, hr]
      | some rt => simp [analyzeHandler, hr, jd_too_short, hwc]

/-- Witness for C10 at a concrete ready state with a 40-word stored job
description, and a concrete abort with a short stored job description. -/
theorem c10_comparison_only_witness :
    (∃ rt jd,
      (⟨some ("RESUME"), some (wWords 40), some true⟩ : SessionState).resume_text = some rt ∧
      (⟨some ("RESUME"), some (wWords 40), some true⟩ : SessionState).job_description = some jd ∧
      ¬ wordCount jd < 40 ∧
      analyze_resume_prompt ("RESUME") (wWords 40)
        = (comparisonSystem,
           pyStrip ("\n" ++ compHead ++ rt ++ compMid ++ jd ++ "\n"))) ∧
    analyzeHandler ⟨some ("RESUME"), some ("too short"), some true⟩ = none :=
  ⟨c10_comparison_only.1 ⟨some ("RESUME"), some (wWords 40), some true⟩ _ rfl,
   c10_comparison_only.2 _ ("too short") rfl (by decide)⟩

/-- Claim C8: whenever extraction succeeds but the normalized resume text is
empty or shorter than 200 characters, the parse handler shows the warning
banner, still stores that (possibly empty) text — together with the trimmed
job description — into the session state, and still proceeds to invoke
job-description validation: a soft warning, never a hard failure. -/
theorem c8_soft_warning :
    ∀ (s : SessionState) (jd_field raw : String)
      (oracle : Except String (Except String JValue)),
      pyStrip jd_field ≠ "" →
      (clean_text raw = "" ∨ (clean_text raw).length < 200) →
      ((parseAction s (some ()) jd_field (.ok raw) oracle).warned = true ∧
       (parseAction s (some ()) jd_field (.ok raw) oracle).state.resume_text
         = some (clean_text raw) ∧
       (parseAction s (some ()) jd_field (.ok raw) oracle).state.job_description
         = some (pyStrip jd_field) ∧
       (parseAction s (some ()) jd_field (.ok raw) oracle).calledValidate = true) := by
  intro s jdf raw oracle hjd hshort
  have hw : ((clean_text raw == "") || (decide ((clean_text raw).length < 200))) = true := by
    rcases hshort with h | h
    · simp [h]
    · simp [h]
  cases hv : validate_job_description_gpt (pyStrip jdf) oracle with
  | error e => simp [parseAction, hjd, hv, hw]
  | ok p =>
    obtain ⟨⟨v, rj⟩, n⟩ := p
    simp [parseAction, hjd, hv, hw]

/-- Witness for C8: a 12-character extraction result is stored, warned
about, and validation still runs. -/
theorem c8_soft_warning_witness :
    pyStrip ("a short jd") ≠ "" ∧
    ((clean_text ("Short resume") = "" ∨ (clean_text ("Short resume")).length < 200)) ∧
    ((parseAction ⟨none, none, none⟩ (some ()) ("a short jd")
        (.ok ("Short resume")) (.ok (.ok (.null)))).warned = true ∧
     (parseAction ⟨none, none, none⟩ (some ()) ("a short jd")
        (.ok ("Short resume")) (.ok (.ok (.null)))).state.resume_text
       = some (clean_text ("Short resume")) ∧
     (parseAction ⟨none, none, none⟩ (some ()) ("a short jd")
        (.ok ("Short resume")) (.ok (.ok (.null)))).state.job_description
       = some (pyStrip ("a short jd")) ∧
     (parseAction ⟨none, none, none⟩ (some ()) ("a short jd")
        (.ok ("Short resume")) (.ok (.ok (.null)))).calledValidate = true) :=
  ⟨by decide, Or.inr (by decide),
   c8_soft_warning ⟨none, none, none⟩ ("a short jd") ("Short resume")
     (.ok (.ok (.null))) (by decide) (Or.inr (by decide))⟩

/-- Counterexample to claim C6 as stated: with an empty initial session
state, a 40-word job description, successful extraction, and a validation
call that raises, the parse action is not atomic — the session state
changes (resume text and job description are stored) while the validation
verdict is left untouched. -/
theorem c6_counterexample :
    validate_job_description_gpt (pyStrip (wWords 40)) (.error ("APIConnectionError"))
      = .error ("APIConnectionError") ∧
    (parseAction ⟨none, none, none⟩ (some ()) (wWords 40)
        (.ok ("sample resume text")) (.error ("APIConnectionError"))).state
      ≠ ⟨none, none, none⟩ ∧
    (parseAction ⟨none, none, none⟩ (some ()) (wWords 40)
        (.ok ("sample resume text")) (.error ("APIConnectionError"))).state.job_description_valid
      = none :=
  ⟨rfl, by decide, rfl⟩

/-- Claim C6 (amended): the parse action leaves all three stored facts
unchanged when no file is uploaded, when the pasted job description is
blank, or when extraction fails; once extraction succeeds it always stores
the normalized resume text and the trimmed job description, and then either
also stores the verdict of the same attempt (when the validation call
returns, including its fail-closed paths) or — when the validation call
raises — leaves only the previously stored verdict in place, so R and J are
updated without V. -/
theorem c6_atomicity :
    ∀ (s : SessionState) (file : Option Unit) (jdf : String)
      (ext : Except String String) (oracle : Except String (Except String JValue)),
      ((parseAction s none jdf ext oracle).state = s) ∧
      (pyStrip jdf = "" → (parseAction s file jdf ext oracle).state = s) ∧
      (∀ e, (parseAction s file jdf (.error e) oracle).state = s) ∧
      (∀ raw, file = some () → pyStrip jdf ≠ "" → ext = .ok raw →
        ((∀ e, validate_job_description_gpt (pyStrip jdf) oracle = .error e →
           (parseAction s file jdf ext oracle).state =
             { s with resume_text := some (clean_text raw),
                      job_description := some (pyStrip jdf) }) ∧
         (∀ v rj n,
           validate_job_description_gpt (pyStrip jdf) oracle = .ok ((v, rj), n) →
           (parseAction s file jdf ext oracle).state =
             ⟨some (clean_text raw), some (pyStrip jdf), some v⟩))) := by
  intro s file jdf ext oracle
  refine ⟨rfl, ?_, ?_, ?_⟩
  · intro h
    cases file with
    | none => rfl
    | some u => simp [parseAction, h]
  · intro e
    cases file with
    | none => rfl
    | some u =>
      by_cases h : pyStrip jdf = "" <;> simp [parseAction, h]
  · intro raw hfile hjd hext
    subst hfile hext
    constructor
    · intro e hv
      simp [parseAction, hjd, hv]
    · intro v rj n hv
      simp [parseAction, hjd, hv]

/-- Witness for the amended C6: a concrete run where validation returns and
all three facts are published together. -/
theorem c6_atomicity_witness :
    pyStrip ("some job description") ≠ "" ∧
    validate_job_description_gpt (pyStrip ("some job description")) (.ok (.ok (.null)))
      = .ok ((false, .str shortMsg), 0) ∧
    (parseAction ⟨none, none, none⟩ (some ()) ("some job description")
        (.ok ("resume body")) (.ok (.ok (.null)))).state
      = ⟨some (clean_text ("resume body")), some (pyStrip ("some job description")),
         some false⟩ :=
  ⟨by decide, rfl,
   ((c6_atomicity ⟨none, none, none⟩ (some ()) ("some job description")
       (.ok ("resume body")) (.ok (.ok (.null)))).2.2.2 ("resume body")
       rfl (by decide) rfl).2 false (.str shortMsg) 0 rfl⟩

/-- The head of a `dropWhile` result never satisfies the dropped predicate. -/
theorem dropWhile_head_all (p : Char → Bool) (l : List Char) :
    ((l.dropWhile p).head?).all (fun c => !p c) = true := by
  induction l with
  | nil => rfl
  | cons a t ih =>
    rw [List.dropWhile_cons]
    by_cases h : p a = true
    · simpa [h] using ih
    · simp [h]

/-- `dropWhile` is the identity when the head does not satisfy the predicate. -/
theorem dropWhile_eq_self_of_head (p : Char → Bool) (l : List Char)
    (h : (l.head?).all (fun c => !p c) = true) : l.dropWhile p = l := by
  cases l with
  | nil => rfl
  | cons a t =>
    simp only [List.head?_cons, Option.all_some] at h
    have h2 : p a = false := by simpa using h
    simp [List.dropWhile_cons, h2]

/-- A stripped list has no Python whitespace at either end. -/
theorem strippedB_pyStripL (l : List Char) : strippedB (pyStripL l) = true := by
  have hm := dropWhile_head_all pyIsSpace l
  have hd := dropWhile_head_all pyIsSpace (List.dropWhile pyIsSpace l).reverse
  obtain ⟨t, ht⟩ := List.dropWhile_suffix (l := (List.dropWhile pyIsSpace l).reverse) pyIsSpace
  have hsplit : List.dropWhile pyIsSpace l =
      ((List.dropWhile pyIsSpace l).reverse.dropWhile pyIsSpace).reverse ++ t.reverse := by
    have := congrArg List.reverse ht
    simpa [List.reverse_append] using this.symm
  unfold strippedB pyStripL pyRstripL pyLstripL
  rw [Bool.and_eq_true]
  constructor
  · cases he : ((List.dropWhile pyIsSpace l).reverse.dropWhile pyIsSpace).reverse with
    | nil => simp [he]
    | cons c r =>
      rw [he] at hsplit
      rw [hsplit] at hm
      simpa using hm
  · simpa using hd

/-- Stripping a stripped list changes nothing. -/
theorem pyStripL_eq_self (l : List Char) (h : strippedB l = true) : pyStripL l = l := by
  unfold strippedB at h
  rw [Bool.and_eq_true] at h
  unfold pyStripL pyLstripL pyRstripL
  rw [dropWhile_eq_self_of_head _ _ h.1, dropWhile_eq_self_of_head _ _ h.2,
    List.reverse_reverse]

/-- The stripped list is a contiguous segment of the original. -/
theorem pyStripL_infix (l : List Char) : ∃ u v, l = u ++ pyStripL l ++ v := by
  obtain ⟨t1, ht1⟩ := List.dropWhile_suffix (l := l) pyIsSpace
  obtain ⟨t2, ht2⟩ := List.dropWhile_suffix (l := (List.dropWhile pyIsSpace l).reverse) pyIsSpace
  refine ⟨t1, t2.reverse, ?_⟩
  have hm : List.dropWhile pyIsSpace l = pyStripL l ++ t2.reverse := by
    have := congrArg List.reverse ht2
    simpa [List.reverse_append, pyStripL, pyRstripL, pyLstripL] using this.symm
  calc l = t1 ++ List.dropWhile pyIsSpace l := ht1.symm
    _ = t1 ++ (pyStripL l ++ t2.reverse) := by rw [← hm]
    _ = t1 ++ pyStripL l ++ t2.reverse := by rw [List.append_assoc]

/-- An `all` predicate descends to the middle of an append decomposition. -/
theorem all_of_append_mid (p : Char → Bool) (u m v : List Char)
    (h : (u ++ m ++ v).all p = true) : m.all p = true := by
  simp only [List.all_append, Bool.and_eq_true] at h
  exact h.1.2

/-- Removing the head preserves absence of horizontal-whitespace runs. -/
theorem noHRunB_cons (a : Char) (l : List Char) (h : noHRunB (a :: l) = true) :
    noHRunB l = true := by
  cases l with
  | nil => rfl
  | cons b t =>
    simp only [noHRunB, Bool.and_eq_true] at h
    exact h.2

/-- Absence of horizontal-whitespace runs descends to a right append part. -/
theorem noHRunB_append_right (u v : List Char) (h : noHRunB (u ++ v) = true) :
    noHRunB v = true := by
  induction u with
  | nil => exact h
  | cons a u' ih => exact ih (noHRunB_cons _ _ h)

/-- Absence of horizontal-whitespace runs descends to a left append part. -/
theorem noHRunB_append_left (u v : List Char) (h : noHRunB (u ++ v) = true) :
    noHRunB u = true := by
  induction u with
  | nil => rfl
  | cons a u' ih =>
    cases u' with
    | nil => rfl
    | cons b u'' =>
      simp only [List.cons_append, noHRunB, Bool.and_eq_true] at h ⊢
      exact ⟨h.1, by
        have := ih (by simpa [List.cons_append] using h.2)
        simpa using this⟩

/-- Removing the head preserves absence of triple newlines. -/
theorem noTripleNLB_cons (a : Char) (l : List Char) (h : noTripleNLB (a :: l) = true) :
    noTripleNLB l = true := by
  cases l with
  | nil => rfl
  | cons b t =>
    cases t with
    | nil => rfl
    | cons c t' =>
      simp only [noTripleNLB, Bool.and_eq_true] at h
      exact h.2

/-- Absence of triple newlines descends to a right append part. -/
theorem noTripleNLB_append_right (u v : List Char) (h : noTripleNLB (u ++ v) = true) :
    noTripleNLB v = true := by
  induction u with
  | nil => exact h
  | cons a u' ih => exact ih (noTripleNLB_cons _ _ h)

/-- Absence of triple newlines descends to a left append part. -/
theorem noTripleNLB_append_left (u v : List Char) (h : noTripleNLB (u ++ v) = true) :
    noTripleNLB u = true := by
  induction u with
  | nil => rfl
  | cons a u' ih =>
    cases u' with
    | nil => rfl
    | cons b u'' =>
      cases u'' with
      | nil => rfl
      | cons c u''' =>
        simp only [List.cons_append, noTripleNLB, Bool.and_eq_true] at h ⊢
        exact ⟨h.1, by
          have := ih (by simpa [List.cons_append] using h.2)
          simpa using this⟩

/-- The head of the space-collapsed list is the head of the input, with
horizontal whitespace turned into a space. -/
theorem collapseH_head? (l : List Char) :
    (collapseH l).head? = l.head?.map (fun c => if isHTab c then ' ' else c) := by
  cases l with
  | nil => rfl
  | cons a t =>
    show (collapseHStep a (collapseH t)).head? = _
    unfold collapseHStep
    by_cases h : isHTab a = true
    · by_cases h2 : ((collapseH t).head? == some ' ') = true
      · rw [if_pos h, if_pos h2]
        rw [beq_iff_eq] at h2
        simp [h, h2]
      · rw [if_pos h, if_neg (by simpa using h2)]
        simp [h]
    · rw [if_neg h]
      simp [h]

/-- The space-collapsed list contains no tab and no adjacent pair of
horizontal-whitespace characters. -/
theorem collapseH_clean (l : List Char) :
    noTabB (collapseH l) = true ∧ noHRunB (collapseH l) = true := by
  induction l with
  | nil => exact ⟨rfl, rfl⟩
  | cons a t ih =>
    obtain ⟨iht, ihr⟩ := ih
    show noTabB (collapseHStep a (collapseH t)) = true ∧
      noHRunB (collapseHStep a (collapseH t)) = true
    unfold collapseHStep
    by_cases h : isHTab a = true
    · by_cases h2 : ((collapseH t).head? == some ' ') = true
      · rw [if_pos h, if_pos h2]
        exact ⟨iht, ihr⟩
      · rw [if_pos h, if_neg (by simpa using h2)]
        constructor
        · simpa [noTabB] using iht
        · cases hr : collapseH t with
          | nil => rfl
          | cons b r' =>
            rw [hr] at h2 iht ihr
            have hb : ¬ b = ' ' := by
              intro hb'
              exact h2 (by simp [hb'])
            have hbt : ¬ b = '\t' := by
              intro hb'
              simp [noTabB, hb'] at iht
            have hnb : isHTab b = false := by
              simp [isHTab, hb, hbt]
            simp [noHRunB, hnb, ihr]
    · rw [if_neg h]
      constructor
      · have ha : ¬ a = '\t' := by
          intro ha'
          exact h (by simp [isHTab, ha'])
        simpa [noTabB, ha] using iht
      · cases hr : collapseH t with
        | nil => rfl
        | cons b r' =>
          rw [hr] at ihr
          have hna : isHTab a = false := by simpa using h
          simp [noHRunB, hna, ihr]

/-- Every character of the space-collapsed list is a space or a character
of the input. -/
theorem collapseH_subset (l : List Char) (c : Char) (h : c ∈ collapseH l) :
    c = ' ' ∨ c ∈ l := by
  induction l with
  | nil => cases h
  | cons a t ih =>
    have h' : c ∈ collapseHStep a (collapseH t) := h
    unfold collapseHStep at h'
    by_cases hc : isHTab a = true
    · rw [if_pos hc] at h'
      by_cases h2 : ((collapseH t).head? == some ' ') = true
      · rw [if_pos h2] at h'
        rcases ih h' with h3 | h3
        · exact Or.inl h3
        · exact Or.inr (List.mem_cons_of_mem _ h3)
      · rw [if_neg (by simpa using h2)] at h'
        rcases List.mem_cons.1 h' with h3 | h3
        · exact Or.inl h3
        · rcases ih h3 with h4 | h4
          · exact Or.inl h4
          · exact Or.inr (List.mem_cons_of_mem _ h4)
    · rw [if_neg hc] at h'
      rcases List.mem_cons.1 h' with h3 | h3
      · exact Or.inr (h3 ▸ List.mem_cons_self _ _)
      · rcases ih h3 with h4 | h4
        · exact Or.inl h4
        · exact Or.inr (List.mem_cons_of_mem _ h4)

/-- Collapsing spaces is the identity on tab-free lists without
horizontal-whitespace runs. -/
theorem collapseH_eq_self (l : List Char) (ht : noTabB l = true)
    (hr : noHRunB l = true) : collapseH l = l := by
  induction l with
  | nil => rfl
  | cons a t ih =>
    have ht' : noTabB t = true := by
      simp only [noTabB, List.all_cons, Bool.and_eq_true] at ht
      exact ht.2
    have hr' : noHRunB t = true := noHRunB_cons _ _ hr
    have e : collapseH t = t := ih ht' hr'
    show collapseHStep a (collapseH t) = a :: t
    rw [e]
    unfold collapseHStep
    by_cases h : isHTab a = true
    · have ha : a = ' ' := by
        have hat : ¬ a = '\t' := by
          intro ha'
          simp [noTabB, ha'] at ht
        rcases (by simpa [isHTab] using h : a = ' ' ∨ a = '\t') with h' | h'
        · exact h'
        · exact absurd h' hat
      have hhead : ¬ (t.head? == some ' ') = true := by
        intro hh
        rw [beq_iff_eq] at hh
        cases t with
        | nil => simp at hh
        | cons b t' =>
          simp only [List.head?_cons, Option.some.injEq] at hh
          rw [ha, hh] at hr
          simp [noHRunB, isHTab] at hr
      rw [if_pos h, if_neg hhead, ha]
    · rw [if_neg h]

/-- The head of the newline-capped list is the head of the input. -/
theorem collapseNL_head? (l : List Char) : (collapseNL l).head? = l.head? := by
  induction l with
  | nil => rfl
  | cons a t ih =>
    show (collapseNLStep a (collapseNL t)).head? = some a
    unfold collapseNLStep
    by_cases h : (a == '\n' && (collapseNL t).take 2 == ['\n', '\n']) = true
    · rw [if_pos h]
      rw [Bool.and_eq_true, beq_iff_eq, beq_iff_eq] at h
      obtain ⟨ha, htake⟩ := h
      cases hr : collapseNL t with
      | nil => rw [hr] at htake; simp at htake
      | cons b r' =>
        rw [hr] at htake
        simp only [List.take_succ_cons, List.cons.injEq] at htake
        simp [ha, htake.1]
    · rw [if_neg h]
      rfl

/-- The newline-capped list has no run of three newlines. -/
theorem collapseNL_noTriple (l : List Char) : noTripleNLB (collapseNL l) = true := by
  induction l with
  | nil => rfl
  | cons a t ih =>
    show noTripleNLB (collapseNLStep a (collapseNL t)) = true
    unfold collapseNLStep
    by_cases h : (a == '\n' && (collapseNL t).take 2 == ['\n', '\n']) = true
    · rw [if_pos h]
      exact ih
    · rw [if_neg h]
      cases hr : collapseNL t with
      | nil => rfl
      | cons b r2 =>
        cases hr2 : r2 with
        | nil => rfl
        | cons c r3 =>
          rw [hr, hr2] at ih
          have hnottriple : (a == '\n' && (b == '\n' && c == '\n')) = false := by
            by_contra hcon
            have h3 : (a == '\n' && (b == '\n' && c == '\n')) = true := by
              revert hcon
              cases (a == '\n' && (b == '\n' && c == '\n')) <;> simp
            rw [Bool.and_eq_true, Bool.and_eq_true] at h3
            apply h
            rw [Bool.and_eq_true]
            refine ⟨h3.1, ?_⟩
            rw [hr, hr2]
            simp [beq_iff_eq] at h3 ⊢
            exact ⟨h3.2.1, h3.2.2⟩
          simp only [noTripleNLB, Bool.and_eq_true]
          constructor
          · rw [Bool.not_eq_true']
            simpa [Bool.and_assoc] using hnottriple
          · exact ih

/-- Capping newlines preserves absence of horizontal-whitespace runs. -/
theorem collapseNL_noHRun (l : List Char) (h : noHRunB l = true) :
    noHRunB (collapseNL l) = true := by
  induction l with
  | nil => rfl
  | cons a t ih =>
    have h' := noHRunB_cons _ _ h
    show noHRunB (collapseNLStep a (collapseNL t)) = true
    unfold collapseNLStep
    by_cases hb : (a == '\n' && (collapseNL t).take 2 == ['\n', '\n']) = true
    · rw [if_pos hb]
      exact ih h'
    · rw [if_neg hb]
      cases hr : collapseNL t with
      | nil => rfl
      | cons b r' =>
        have hbt : t.head? = some b := by
          rw [← collapseNL_head? t, hr]
          rfl
        cases t with
        | nil => simp [collapseNL] at hr
        | cons b0 t0 =>
          have hb0 : b0 = b := by simpa using hbt
          subst hb0
          simp only [noHRunB, Bool.and_eq_true] at h
          rw [hr] at ih
          simp only [noHRunB, Bool.and_eq_true]
          exact ⟨h.1, ih h'⟩

/-- Every character of the newline-capped list is a character of the input. -/
theorem collapseNL_subset (l : List Char) (c : Char) (h : c ∈ collapseNL l) :
    c ∈ l := by
  induction l with
  | nil => cases h
  | cons a t ih =>
    have h' : c ∈ collapseNLStep a (collapseNL t) := h
    unfold collapseNLStep at h'
    by_cases hb : (a == '\n' && (collapseNL t).take 2 == ['\n', '\n']) = true
    · rw [if_pos hb] at h'
      exact List.mem_cons_of_mem _ (ih h')
    · rw [if_neg hb] at h'
      rcases List.mem_cons.1 h' with h3 | h3
      · exact h3 ▸ List.mem_cons_self _ _
      · exact List.mem_cons_of_mem _ (ih h3)

/-- Capping newlines is the identity on lists without triple newlines. -/
theorem collapseNL_eq_self (l : List Char) (h : noTripleNLB l = true) :
    collapseNL l = l := by
  induction l with
  | nil => rfl
  | cons a t ih =>
    have e : collapseNL t = t := ih (noTripleNLB_cons _ _ h)
    show collapseNLStep a (collapseNL t) = a :: t
    rw [e]
    unfold collapseNLStep
    by_cases hb : (a == '\n' && t.take 2 == ['\n', '\n']) = true
    · exfalso
      rw [Bool.and_eq_true, beq_iff_eq, beq_iff_eq] at hb
      obtain ⟨ha, htk⟩ := hb
      cases t with
      | nil => simp at htk
      | cons b t' =>
        cases t' with
        | nil => simp at htk
        | cons c t'' =>
          simp only [List.take_succ_cons, List.take_zero, List.cons.injEq, and_true] at htk
          rw [ha, htk.1, htk.2] at h
          simp [noTripleNLB] at h
    · rw [if_neg hb]

/-- The zero-width-filtered list satisfies the no-zero-width predicate. -/
theorem removeZW_noZW (l : List Char) : noZW (removeZW l) = true := by
  rw [noZW, List.all_eq_true]
  intro c hc
  exact (List.mem_filter.1 hc).2

/-- Filtering zero-width characters out of a list without them changes
nothing. -/
theorem removeZW_eq_self (l : List Char) (h : noZW l = true) : removeZW l = l := by
  rw [noZW, List.all_eq_true] at h
  exact List.filter_eq_self.2 h

/-- Every character of the zero-width-filtered list is in the input. -/
theorem removeZW_subset (l : List Char) (c : Char) (h : c ∈ removeZW l) : c ∈ l :=
  (List.mem_filter.1 h).1

/-- An `all` predicate transfers along a character-subset relation. -/
theorem all_of_subset (p : Char → Bool) (l m : List Char)
    (hsub : ∀ c, c ∈ m → c ∈ l) (h : l.all p = true) : m.all p = true := by
  rw [List.all_eq_true] at h ⊢
  intro c hc
  exact h c (hsub c hc)

/-- The character list of a `clean_text` result on nonempty input. -/
theorem clean_text_data (t : String) (h : ¬ t = "") :
    (clean_text t).data = pyStripL (removeZW (collapseNL (collapseH t.data))) := by
  simp [clean_text, h, pyStrip]

/-- Every `clean_text` output is free of zero-width characters and has no
whitespace at either end. -/
theorem clean_text_basic (x : String) :
    noZW (clean_text x).data = true ∧ strippedB (clean_text x).data = true := by
  by_cases hx : x = ""
  · subst hx
    exact ⟨rfl, rfl⟩
  · rw [clean_text_data x hx]
    constructor
    · have h1 : noZW (removeZW (collapseNL (collapseH x.data))) = true := removeZW_noZW _
      obtain ⟨u, v, huv⟩ := pyStripL_infix (removeZW (collapseNL (collapseH x.data)))
      rw [huv] at h1
      unfold noZW at h1 ⊢
      exact all_of_append_mid _ u _ v h1
    · exact strippedB_pyStripL _

/-- On zero-width-free input, the `clean_text` output additionally has no
tab, no horizontal-whitespace run, and no triple newline. -/
theorem clean_text_zwfree (x : String) (h : noZW x.data = true) :
    noZW (clean_text x).data = true ∧ noTabB (clean_text x).data = true ∧
    noHRunB (clean_text x).data = true ∧ noTripleNLB (clean_text x).data = true ∧
    strippedB (clean_text x).data = true := by
  by_cases hx : x = ""
  · subst hx
    exact ⟨rfl, rfl, rfl, rfl, rfl⟩
  · have hH := collapseH_clean x.data
    have hzH : noZW (collapseH x.data) = true := by
      unfold noZW at h ⊢
      rw [List.all_eq_true] at h ⊢
      intro c hc
      rcases collapseH_subset _ _ hc with h' | h'
      · subst h'
        decide
      · exact h c h'
    have hzNL : noZW (collapseNL (collapseH x.data)) = true := by
      unfold noZW at hzH ⊢
      exact all_of_subset _ _ _ (fun c hc => collapseNL_subset _ c hc) hzH
    have hrm : removeZW (collapseNL (collapseH x.data)) = collapseNL (collapseH x.data) :=
      removeZW_eq_self _ hzNL
    have hTab : noTabB (collapseNL (collapseH x.data)) = true := by
      unfold noTabB at hH ⊢
      exact all_of_subset _ _ _ (fun c hc => collapseNL_subset _ c hc) hH.1
    have hRun : noHRunB (collapseNL (collapseH x.data)) = true :=
      collapseNL_noHRun _ hH.2
    have hTri : noTripleNLB (collapseNL (collapseH x.data)) = true :=
      collapseNL_noTriple _
    rw [clean_text_data x hx, hrm]
    obtain ⟨u, v, huv⟩ := pyStripL_infix (collapseNL (collapseH x.data))
    refine ⟨?_, ?_, ?_, ?_, strippedB_pyStripL _⟩
    · have h1 := hzNL
      rw [huv] at h1
      unfold noZW at h1 ⊢
      exact all_of_append_mid _ u _ v h1
    · have h1 := hTab
      rw [huv] at h1
      unfold noTabB at h1 ⊢
      exact all_of_append_mid _ u _ v h1
    · have h1 := hRun
      rw [huv] at h1
      exact noHRunB_append_right u _ (noHRunB_append_left _ v h1)
    · have h1 := hTri
      rw [huv] at h1
      exact noTripleNLB_append_right u _ (noTripleNLB_append_left _ v h1)

/-- `clean_text` is the identity on strings already satisfying all of its
output invariants. -/
theorem clean_text_fixpoint (y : String) (h1 : noZW y.data = true)
    (h2 : noTabB y.data = true) (h3 : noHRunB y.data = true)
    (h4 : noTripleNLB y.data = true) (h5 : strippedB y.data = true) :
    clean_text y = y := by
  by_cases hy : y = ""
  · subst hy
    rfl
  · have e1 : collapseH y.data = y.data := collapseH_eq_self _ h2 h3
    have e2 : collapseNL y.data = y.data := collapseNL_eq_self _ h4
    have e3 : removeZW y.data = y.data := removeZW_eq_self _ h1
    have e4 : pyStripL y.data = y.data := pyStripL_eq_self _ h5
    unfold clean_text
    rw [if_neg hy, e1, e2, e3]
    show pyStrip ⟨y.data⟩ = y
    unfold pyStrip
    rw [show (⟨y.data⟩ : String).data = y.data from rfl, e4]

/-- Counterexample to claim C4 as stated: `clean_text` is not idempotent.
Deleting the zero-width space of the input happens after space collapsing,
so it creates a new two-space run that only a second application collapses. -/
theorem c4_counterexample :
    clean_text c4Input = ("a  b") ∧ clean_text (clean_text c4Input) = ("a b") ∧
    clean_text (clean_text c4Input) ≠ clean_text c4Input :=
  ⟨by decide, by decide, by decide⟩

/-- Claim C4 (amended): `clean_text` is idempotent on every input that
contains no zero-width space and no BOM character. -/
theorem c4_idempotent :
    ∀ x : String, noZW x.data = true →
      clean_text (clean_text x) = clean_text x := by
  intro x h
  obtain ⟨hz, htab, hrun, htri, hstr⟩ := clean_text_zwfree x h
  exact clean_text_fixpoint _ hz htab hrun htri hstr

/-- Witness for the amended C4 on a concrete messy but zero-width-free
input. -/
theorem c4_idempotent_witness :
    noZW ("plain \t text\n\n\n\n here ").data = true ∧
    clean_text (clean_text ("plain \t text\n\n\n\n here "))
      = clean_text ("plain \t text\n\n\n\n here ") :=
  ⟨by decide, c4_idempotent _ (by decide)⟩

/-- Counterexample to claim C5 as stated: deleting the zero-width space
joins two double newlines into a run of four, which survives to the
output, so the no-more-than-two-newlines invariant fails. -/
theorem c5_counterexample :
    clean_text c5Input = ("x\n\n\n\ny") ∧
    noTripleNLB (clean_text c5Input).data = false :=
  ⟨by decide, by decide⟩

/-- Claim C5 (amended): every `clean_text` output contains no zero-width
space or BOM and has no leading or trailing whitespace; and when the input
is itself free of zero-width space and BOM, the output additionally has no
run of two or more horizontal-whitespace characters and no run of more than
two consecutive newlines. -/
theorem c5_invariants :
    ∀ x : String,
      (noZW (clean_text x).data = true ∧ strippedB (clean_text x).data = true) ∧
      (noZW x.data = true →
        noHRunB (clean_text x).data = true ∧ noTripleNLB (clean_text x).data = true) := by
  intro x
  refine ⟨clean_text_basic x, ?_⟩
  intro h
  obtain ⟨_, _, hrun, htri, _⟩ := clean_text_zwfree x h
  exact ⟨hrun, htri⟩

/-- Witness for the amended C5 on a concrete zero-width-free input. -/
theorem c5_invariants_witness :
    (noZW (clean_text ("  a\t\tb\n\n\n\nc ")).data = true ∧
     strippedB (clean_text ("  a\t\tb\n\n\n\nc ")).data = true) ∧
    noZW ("  a\t\tb\n\n\n\nc ").data = true ∧
    noHRunB (clean_text ("  a\t\tb\n\n\n\nc ")).data = true ∧
    noTripleNLB (clean_text ("  a\t\tb\n\n\n\nc ")).data = true :=
  ⟨(c5_invariants _).1, by decide,
   ((c5_invariants ("  a\t\tb\n\n\n\nc ")).2 (by decide)).1,
   ((c5_invariants ("  a\t\tb\n\n\n\nc ")).2 (by decide)).2⟩

/-- A list of whitespace-only characters has word count zero. -/
theorem countWordsAux_zero (b : Bool) (l : List Char)
    (h : ∀ c ∈ l, pyIsSpace c = true) : countWordsAux b l = 0 := by
  induction l generalizing b with
  | nil => rfl
  | cons a t ih =>
    have ha := h a (List.mem_cons_self _ _)
    simp only [countWordsAux, ha, if_true]
    exact ih false (fun c hc => h c (List.mem_cons_of_mem _ hc))

/-- A string with at least forty words contains a non-whitespace character. -/
theorem exists_nonspace_of_words (jd : String) (h : ¬ wordCount jd < 40) :
    ∃ c ∈ jd.data, pyIsSpace c = false := by
  by_contra hc
  push_neg at hc
  have h0 : countWordsAux false jd.data = 0 := by
    apply countWordsAux_zero
    intro c hm
    have hcc := hc c hm
    cases hps : pyIsSpace c
    · exact absurd hps hcc
    · rfl
  exact h (by unfold wordCount; rw [h0]; decide)

/-- `dropWhile` over an append whose left part starts with a non-matching
character changes nothing. -/
theorem dropWhile_append_stop (p : Char → Bool) (u z : List Char) (c : Char)
    (hu : u.head? = some c) (hc : p c = false) :
    (u ++ z).dropWhile p = u ++ z := by
  cases u with
  | nil => simp at hu
  | cons a t =>
    simp only [List.head?_cons, Option.some.injEq] at hu
    subst hu
    simp [List.dropWhile_cons, hc]

/-- Right strip distributes over an append whose right part contains a
non-whitespace character. -/
theorem pyRstripL_append (u v : List Char)
    (h : ∃ c ∈ v, pyIsSpace c = false) :
    pyRstripL (u ++ v) = u ++ pyRstripL v := by
  unfold pyRstripL
  rw [List.reverse_append]
  have hne : v.reverse.dropWhile pyIsSpace ≠ [] := by
    rw [Ne, List.dropWhile_eq_nil_iff]
    push_neg
    obtain ⟨c, hcm, hcf⟩ := h
    exact ⟨c, List.mem_reverse.2 hcm, by simp [hcf]⟩
  rw [List.dropWhile_append, if_neg (by simpa [List.isEmpty_iff] using hne),
    List.reverse_append, List.reverse_reverse]

/-- Right strip absorbs a trailing newline. -/
theorem pyRstripL_newline (u : List Char) :
    pyRstripL (u ++ ['\n']) = pyRstripL u := by
  unfold pyRstripL
  have h1 : (u ++ ['\n']).reverse = '\n' :: u.reverse := by
    simp [List.reverse_append]
  rw [h1, List.dropWhile_cons, if_pos (by decide)]

/-- An infix of a list is an infix of every right-extension of it. -/
theorem infix_extend (l u v : List Char) (h : l <:+: u) : l <:+: u ++ v := by
  obtain ⟨s, t, hst⟩ := h
  exact ⟨s, t ++ v, by rw [← hst]; simp [List.append_assoc]⟩

/-- Stripping an assembled f-string template whose fixed head starts with a
non-whitespace character removes exactly the leading newline and the
trailing newline together with the embedded job description's trailing
whitespace. -/
theorem pyStrip_template (head resume mid jd : String) (c0 : Char)
    (hh : head.data.head? = some c0) (hc0 : pyIsSpace c0 = false)
    (hnz : ∃ c ∈ jd.data, pyIsSpace c = false) :
    pyStrip ("\n" ++ head ++ resume ++ mid ++ jd ++ "\n")
      = head ++ resume ++ mid ++ ⟨pyRstripL jd.data⟩ := by
  apply String.ext
  have hnl : ("\n" : String).data = ['\n'] := rfl
  have hdata : ("\n" ++ head ++ resume ++ mid ++ jd ++ "\n").data
      = '\n' :: (head.data ++ (resume.data ++ (mid.data ++ (jd.data ++ ['\n'])))) := by
    simp [String.data_append, hnl, List.append_assoc]
  show pyStripL ("\n" ++ head ++ resume ++ mid ++ jd ++ "\n").data = _
  rw [hdata]
  unfold pyStripL pyLstripL
  rw [List.dropWhile_cons, if_pos (by decide)]
  rw [dropWhile_append_stop pyIsSpace head.data _ c0 hh hc0]
  have hregroup : head.data ++ (resume.data ++ (mid.data ++ (jd.data ++ ['\n'])))
      = (head.data ++ resume.data ++ mid.data) ++ (jd.data ++ ['\n']) := by
    simp [List.append_assoc]
  rw [hregroup]
  rw [pyRstripL_append _ _ ⟨(by
    obtain ⟨c, hcm, hcf⟩ := hnz
    exact ⟨c, List.mem_append_left _ hcm, hcf⟩ : ∃ c ∈ jd.data ++ ['\n'], pyIsSpace c = false).choose,
    (by
    obtain ⟨c, hcm, hcf⟩ := hnz
    exact ⟨c, List.mem_append_left _ hcm, hcf⟩ : ∃ c ∈ jd.data ++ ['\n'], pyIsSpace c = false).choose_spec⟩]
  rw [pyRstripL_newline]
  simp [String.data_append, List.append_assoc]

set_option maxRecDepth 100000 in
/-- Claim C7 (amended): the prompt assembly is a pure function of the two
texts; it selects the resume-only template exactly when the job description
has fewer than 40 words and otherwise the comparison template, whose user
message requests the five named sections; both messages embed the resume
verbatim without truncation, and embed the job description verbatim up to
its trailing whitespace, which the final `.strip()` of the assembled
message removes. -/
theorem c7_prompt_builder :
    ∀ resume jd : String,
      ((analyze_resume_prompt resume jd).1
        = if wordCount jd < 40 then resumeOnlySystem else comparisonSystem) ∧
      (wordCount jd < 40 → (∃ c ∈ jd.data, pyIsSpace c = false) →
        (analyze_resume_prompt resume jd).2
          = roHead ++ resume ++ roMid ++ ⟨pyRstripL jd.data⟩) ∧
      (¬ wordCount jd < 40 →
        ((analyze_resume_prompt resume jd).2
           = compHead ++ resume ++ compMid ++ ⟨pyRstripL jd.data⟩) ∧
        resume.data <:+: ((analyze_resume_prompt resume jd).2).data ∧
        pyRstripL jd.data <:+: ((analyze_resume_prompt resume jd).2).data ∧
        ("**Strengths vs JD**").data <:+: ((analyze_resume_prompt resume jd).2).data ∧
        ("**Skill/Experience Gaps**").data <:+: ((analyze_resume_prompt resume jd).2).data ∧
        ("**Resume Bullet Rewrites (ATS-ready)**").data
          <:+: ((analyze_resume_prompt resume jd).2).data ∧
        ("**Tailored Professional Summary (3–4 sentences)**").data
          <:+: ((analyze_resume_prompt resume jd).2).data ∧
        ("**Top Keywords to Add**").data <:+: ((analyze_resume_prompt resume jd).2).data) := by
  intro resume jd
  refine ⟨?_, ?_, ?_⟩
  · by_cases h : wordCount jd < 40
    · simp [analyze_resume_prompt, h]
    · simp [analyze_resume_prompt, h]
  · intro h hnz
    show (if wordCount jd < 40 then _ else _ : String × String).2 = _
    rw [if_pos h]
    exact pyStrip_template roHead resume roMid jd 'R' (by decide) (by decide) hnz
  · intro h
    have hnz := exists_nonspace_of_words jd h
    have heq : (analyze_resume_prompt resume jd).2
        = compHead ++ resume ++ compMid ++ ⟨pyRstripL jd.data⟩ := by
      show (if wordCount jd < 40 then _ else _ : String × String).2 = _
      rw [if_neg h]
      exact pyStrip_template compHead resume compMid jd 'R' (by decide) (by decide) hnz
    have hdata : ((analyze_resume_prompt resume jd).2).data
        = compHead.data ++ (resume.data ++ (compMid.data ++ pyRstripL jd.data)) := by
      rw [heq]
      simp [String.data_append, List.append_assoc]
    refine ⟨heq, ?_, ?_, ?_, ?_, ?_, ?_, ?_⟩
    · rw [hdata]
      exact ⟨compHead.data, compMid.data ++ pyRstripL jd.data, by simp [List.append_assoc]⟩
    · rw [hdata]
      exact ⟨compHead.data ++ resume.data ++ compMid.data, [], by simp [List.append_assoc]⟩
    · rw [hdata]
      exact infix_extend _ _ _ (by decide)
    · rw [hdata]
      exact infix_extend _ _ _ (by decide)
    · rw [hdata]
      exact infix_extend _ _ _ (by decide)
    · rw [hdata]
      exact infix_extend _ _ _ (by decide)
    · rw [hdata]
      exact infix_extend _ _ _ (by decide)

set_option maxRecDepth 100000 in
/-- Witness for the amended C7 at a concrete resume and a concrete 40-word
job description. -/
theorem c7_prompt_builder_witness :
    ¬ wordCount (wWords 40) < 40 ∧
    (analyze_resume_prompt ("MY RESUME") (wWords 40)).1 = comparisonSystem ∧
    (analyze_resume_prompt ("MY RESUME") (wWords 40)).2
      = compHead ++ ("MY RESUME") ++ compMid ++ ⟨pyRstripL (wWords 40).data⟩ ∧
    ("**Strengths vs JD**").data
      <:+: ((analyze_resume_prompt ("MY RESUME") (wWords 40)).2).data := by
  refine ⟨by decide, ?_, ?_, ?_⟩
  · rw [(c7_prompt_builder ("MY RESUME") (wWords 40)).1, if_neg (by decide)]
  · exact ((c7_prompt_builder ("MY RESUME") (wWords 40)).2.2 (by decide)).1
  · exact ((c7_prompt_builder ("MY RESUME") (wWords 40)).2.2 (by decide)).2.2.2.1

set_option maxRecDepth 100000 in
/-- Counterexample to claim C7 as stated: with a 40-word job description
carrying trailing spaces, the comparison branch is selected but the
assembled user message does not contain the job description verbatim — the
final strip removed its trailing whitespace. -/
theorem c7_counterexample :
    ¬ wordCount jdTrailing < 40 ∧
    ¬ (jdTrailing.data <:+: ((analyze_resume_prompt ("R") jdTrailing).2).data) := by
  refine ⟨by decide, by decide⟩
